import Mathlib

/-!
# Verification of the time-windowed aggregation client (threat-dashboard)

Shallow embedding of the API route handlers of the `threat-dashboard`
repository: the window generators (`getLast7DaysExcludingToday`,
`getLast12MonthsExcludingCurrent`), the query builders
(`buildDailyPayload` of the threats, telegram and credentials routes),
the retrying fetcher (`fetchDailyTotal` of the telegram route), the
aggregation drivers (the `POST` handlers of the threats, bulk and
telegram routes) and the CSV exporter (header re-labeling of the
monthly route).

JavaScript `Date` values are modelled as `Int` milliseconds since the
Unix epoch; the server runs with a UTC local time zone, so
`setHours(0,0,0,0)` floors a timestamp to a multiple of `86400000` and
`toISOString()` renders the proleptic Gregorian (civil) calendar date.
Upstream HTTP traffic is modelled by an attempt-indexed oracle of
`Outcome`s; thrown JavaScript errors are `JsError` values carrying
`name` and `message`.
-/

/-! ## Characters, digits and number rendering -/

/-- The ten decimal digit characters. -/
def digitCharList : List Char := ['0', '1', '2', '3', '4', '5', '6', '7', '8', '9']

/-- The decimal digit character of `n % 10`. -/
def digitChar (n : Nat) : Char :=
  digitCharList.get ⟨n % 10, Nat.mod_lt n (by decide)⟩

/-- Accumulator-style decimal digit expansion (most significant first);
`fuel` bounds the recursion and is always sufficient at `n + 1`. -/
def natDigsAux : Nat → Nat → List Char → List Char
  | 0, _, acc => acc
  | fuel + 1, n, acc =>
    if n < 10 then digitChar n :: acc
    else natDigsAux fuel (n / 10) (digitChar n :: acc)

/-- Decimal rendering of a natural number (JS `String(n)` / template
interpolation of a nonnegative integer). -/
def natStr (n : Nat) : String := String.mk (natDigsAux (n + 1) n [])

/-- Two-digit zero padding, as produced by `toISOString` month/day fields. -/
def pad2 (n : Nat) : String := if n < 10 then "0" ++ natStr n else natStr n

/-- Four-digit zero padding, as produced by `toISOString` year field. -/
def pad4 (n : Nat) : String :=
  if n < 10 then "000" ++ natStr n
  else if n < 100 then "00" ++ natStr n
  else if n < 1000 then "0" ++ natStr n
  else natStr n

/-! ## Civil (proleptic Gregorian) calendar, as used by `Date.toISOString` -/

/-- Milliseconds per day. -/
def msPerDay : Int := 86400000

/-- Civil date `(year, month, day)` of a day number (days since
1970-01-01); Howard Hinnant's `civil_from_days` algorithm, which is the
calendar used by JavaScript `Date`. -/
def civilFromDays (z : Int) : Int × Nat × Nat :=
  let z := z + 719468
  let era := (if 0 ≤ z then z else z - 146096) / 146097
  let doe := (z - era * 146097).toNat
  let yoe := (doe - doe / 1460 + doe / 36524 - doe / 146096) / 365
  let y : Int := (yoe : Int) + era * 400
  let doy := doe - (365 * yoe + yoe / 4 - yoe / 100)
  let mp := (5 * doy + 2) / 153
  let d := doy - (153 * mp + 2) / 5 + 1
  let m := if mp < 10 then mp + 3 else mp - 9
  (if m ≤ 2 then y + 1 else y, m, d)

/-- Day number (days since 1970-01-01) of a civil date; Howard
Hinnant's `days_from_civil`, the inverse used to model the
`new Date(year, month, day)` constructor on a UTC-zoned server. -/
def daysFromCivil (y : Int) (m d : Nat) : Int :=
  let y := if m ≤ 2 then y - 1 else y
  let era := (if 0 ≤ y then y else y - 399) / 400
  let yoe := (y - era * 400).toNat
  let mp := if 2 < m then m - 3 else m + 9
  let doy := (153 * mp + 2) / 5 + d - 1
  let doe := yoe * 365 + yoe / 4 - yoe / 100 + doy
  era * 146097 + (doe : Int) - 719468

/-- `YYYY-MM-DD` rendering of a day number, i.e.
`new Date(dayNum * 86400000).toISOString().split("T")[0]`. -/
def dateStr (dayNum : Int) : String :=
  let c := civilFromDays dayNum
  pad4 c.1.toNat ++ "-" ++ pad2 c.2.1 ++ "-" ++ pad2 c.2.2

/-- First `n` characters of a string (JS `String.prototype.slice(0, n)`). -/
def strTake (s : String) (n : Nat) : String := String.mk (s.data.take n)

/-! ## Window generators -/

/-- `getLast7DaysExcludingToday` (threats / bulk / telegram /
credentials routes): floor `now` to local (=UTC) midnight, step back one
day, then push the ISO dates of that day minus `i` days for
`i = 6, 5, …, 0`. `now` is the reference instant in ms since epoch. -/
def getLast7DaysExcludingToday (now : Int) : List String :=
  let base := (now - now % msPerDay) - msPerDay
  (List.range 7).map (fun j => dateStr ((base - ((6 - j : Nat) : Int) * msPerDay) / msPerDay))

/-- A month interval of the monthly route: ISO `start`/`stop` instants
and the `YYYY-MM` label. (`stop` is the source's `end`, a reserved
word in Lean.) -/
structure MonthInterval where
  start : String
  stop : String
  label : String
deriving DecidableEq, Repr

/-- The body of `getLast12MonthsExcludingCurrent` once `now` has been
reduced to its civil year `y0` and 1-based month `m0`: for
`i = 1, …, 12` shift back `i` months (JS `setMonth` normalization,
i.e. flooring division of the month count), take the first and last day
of that month, and reverse into oldest-first order. -/
def monthsFromYM (y0 : Int) (m0 : Nat) : List MonthInterval :=
  ((List.range 12).map (fun j =>
    let i : Int := (j : Int) + 1
    let total : Int := y0 * 12 + ((m0 : Int) - 1) - i
    let y := total / 12
    let m : Nat := (total % 12).toNat + 1
    let startDay := daysFromCivil y m 1
    let nextY := if m = 12 then y + 1 else y
    let nextM := if m = 12 then 1 else m + 1
    let endDay := daysFromCivil nextY nextM 1 - 1
    { start := dateStr startDay ++ "T00:00:00Z"
      stop := dateStr endDay ++ "T23:59:59Z"
      label := strTake (dateStr startDay) 7 })).reverse

/-- `getLast12MonthsExcludingCurrent` (monthly route): `setDate(1)` and
`setHours(0,0,0,0)` keep only the civil year and month of `now`. -/
def getLast12MonthsExcludingCurrent (now : Int) : List MonthInterval :=
  let c := civilFromDays (now / msPerDay)
  monthsFromYM c.1 c.2.1

/-! ## Substrings (JS `String.prototype.includes`) -/

/-- `subHereOrLater pat l` is true when `pat` occurs as a contiguous
sublist of `l`. -/
def subHereOrLater (pat : List Char) : List Char → Bool
  | [] => pat.isEmpty
  | c :: rest => pat.isPrefixOf (c :: rest) || subHereOrLater pat rest

/-- JS `s.includes(pat)`. -/
def strIncludes (s pat : String) : Bool := subHereOrLater pat.data s.data

/-! ## The retrying fetcher (telegram route `fetchDailyTotal`) -/

/-- A thrown JavaScript error value: its `name` and `message`. -/
structure JsError where
  name : String
  message : String
deriving DecidableEq, Repr

/-- One upstream attempt's outcome: an HTTP response with a status, a
body text (used by `response.text()` on non-ok statuses) and the result
of `response.json()` then `data?.total?.value ?? 0` on ok statuses
(`Except.error` when `json()` throws); or a network/timeout error
thrown by `fetch` itself. -/
inductive Outcome where
  | resp (status : Nat) (bodyText : String) (parsed : Except JsError Nat)
  | netErr (e : JsError)
deriving Repr

/-- The message of the error thrown on a non-ok HTTP response:
`Day ${day} for keyword "${keyword}" => ${status}: ${errorText}`. -/
def httpErrMsg (day keyword : String) (status : Nat) (bodyText : String) : String :=
  "Day " ++ day ++ " for keyword \"" ++ keyword ++ "\" => " ++ natStr status ++ ": " ++ bodyText

/-- The `Error` object thrown on a non-ok HTTP response. -/
def httpError (day keyword : String) (status : Nat) (bodyText : String) : JsError :=
  { name := "Error", message := httpErrMsg day keyword status bodyText }

/-- What one loop iteration of `fetchDailyTotal` does: return a count,
throw an error out of the function, or `continue` to the next attempt
(every `continue` path first sets `hadRetries = true`). -/
inductive StepOut where
  | ret (count : Nat)
  | thr (e : JsError)
  | retry
deriving DecidableEq, Repr

/-- The `catch` block of `fetchDailyTotal`: rethrow on the last
attempt; otherwise retry exactly when the error looks like a
timeout/network error (`name === 'AbortError'` or
`message.includes('fetch')`), and rethrow anything else. -/
def classifyCatch (e : JsError) (attempt maxRetries : Nat) : StepOut :=
  if attempt = maxRetries then .thr e
  else if e.name = "AbortError" || strIncludes e.message "fetch" then .retry
  else .thr e

/-- One iteration of the retry loop of the telegram route's
`fetchDailyTotal`, for the given attempt number: classify the HTTP
response (`ok` = status 200–299; 429 and 5xx retry while attempts
remain; any other non-ok status throws, landing in the `catch` block),
or classify a thrown error. -/
def stepOf (keyword day : String) (o : Outcome) (attempt maxRetries : Nat) : StepOut :=
  match o with
  | .resp status bodyText parsed =>
    if 200 ≤ status ∧ status ≤ 299 then
      match parsed with
      | .ok c => .ret c
      | .error e => classifyCatch e attempt maxRetries
    else if status = 429 ∧ attempt < maxRetries then .retry
    else if 500 ≤ status ∧ attempt < maxRetries then .retry
    else classifyCatch (httpError day keyword status bodyText) attempt maxRetries
  | .netErr e => classifyCatch e attempt maxRetries

/-- Result of `fetchDailyTotal`: a returned `{ count, hadRetries }`, a
thrown error, or the trailing `return { count: 0, hadRetries }` placed
after the loop (reached only if the loop finishes all iterations
without returning or throwing). -/
inductive FetchResult where
  | success (count : Nat) (hadRetries : Bool)
  | failure (e : JsError)
  | fellThrough (hadRetries : Bool)
deriving DecidableEq, Repr

/-- The retry loop `for (attempt = 1; attempt <= maxRetries; attempt++)`
of `fetchDailyTotal`; `fuel` is the number of remaining iterations
(`maxRetries - attempt + 1`), and `responses n` is the upstream outcome
observed by attempt `n`. -/
def fetchAux (keyword day : String) (responses : Nat → Outcome) (maxRetries : Nat) :
    Nat → Nat → Bool → FetchResult
  | 0, _, hadRetries => .fellThrough hadRetries
  | fuel + 1, attempt, hadRetries =>
    match stepOf keyword day (responses attempt) attempt maxRetries with
    | .ret c => .success c hadRetries
    | .thr e => .failure e
    | .retry => fetchAux keyword day responses maxRetries fuel (attempt + 1) true

/-- The telegram route's `fetchDailyTotal(keyword, day, maxRetries = 3)`
run against the upstream outcome oracle `responses`. -/
def fetchDailyTotal (keyword day : String) (responses : Nat → Outcome)
    (maxRetries : Nat := 3) : FetchResult :=
  fetchAux keyword day responses maxRetries maxRetries 1 false

/-! ## Query builders -/

/-- The JSON payload POSTed to the upstream search API: `page`, `size`,
`highlight.enabled`, `include_total`, `query`, `include.date.start`,
`include.date.end` and the optional `include.site` filter. -/
structure Payload where
  page : Nat
  size : Nat
  highlightEnabled : Bool
  includeTotal : Bool
  query : String
  dateStart : String
  dateEnd : String
  site : Option (List String)
deriving DecidableEq, Repr

namespace Threats

/-- `buildDailyPayload` of the threats route (also the bulk, monthly
and yearly routes' daily/monthly payloads, which have the same fields
and no site filter). -/
def buildDailyPayload (keyword day : String) : Payload :=
  { page := 0
    size := 0
    highlightEnabled := true
    includeTotal := true
    query := keyword
    dateStart := day ++ "T00:00:00Z"
    dateEnd := day ++ "T23:59:59Z"
    site := none }

end Threats

namespace Telegram

/-- `buildDailyPayload` of the telegram route: adds the
`site: ["telegram"]` filter, and uses `size: 1` (the source comment
notes it was "Changed from 0 to 1"). -/
def buildDailyPayload (keyword day : String) : Payload :=
  { page := 0
    size := 1
    highlightEnabled := true
    includeTotal := true
    query := keyword
    dateStart := day ++ "T00:00:00Z"
    dateEnd := day ++ "T23:59:59Z"
    site := some ["telegram"] }

end Telegram

namespace Credentials

/-- `buildDailyPayload` of the credentials route: prefixes the query
with the fixed structural filter `+basetypes:(credential-sighting)`. -/
def buildDailyPayload (keyword day : String) : Payload :=
  { page := 0
    size := 0
    highlightEnabled := true
    includeTotal := true
    query := "+basetypes:(credential-sighting) " ++ keyword
    dateStart := day ++ "T00:00:00Z"
    dateEnd := day ++ "T23:59:59Z"
    site := none }

end Credentials

/-! ## Splitting and joining (JS `split` / `join` on one-character separators) -/

/-- JS `str.split(sep)` for a one-character separator, on character
lists: always returns at least one (possibly empty) piece. -/
def splitCh (c : Char) : List Char → List (List Char)
  | [] => [[]]
  | a :: rest =>
    let r := splitCh c rest
    if a = c then [] :: r
    else
      match r with
      | [] => [[a]]
      | h :: t => (a :: h) :: t

/-- JS `parts.join(sep)` for a one-character separator, on character
lists. -/
def icalateCh (c : Char) : List (List Char) → List Char
  | [] => []
  | [p] => p
  | p :: q :: rest => p ++ c :: icalateCh c (q :: rest)

/-- JS `s.split(c)` on strings. -/
def jsSplitC (c : Char) (s : String) : List String :=
  (splitCh c s.data).map String.mk

/-- JS `parts.join(c)` on strings. -/
def jsJoinC (c : Char) (parts : List String) : String :=
  String.mk (icalateCh c (parts.map String.data))

/-- JS array index assignment `xs[i] = v` (in-range use only). -/
def jsSetAt (xs : List String) (i : Nat) (v : String) : List String := xs.set i v

/-! ## The json2csv serializer (as configured by the routes) -/

/-- A CSV cell value as stored in a route's result row object: the
keyword string or a numeric count. -/
inductive CellVal where
  | str (s : String)
  | num (n : Nat)
deriving DecidableEq, Repr

/-- json2csv's field quoting: wrap in double quotes, doubling any
embedded double quote. -/
def csvQuote (s : String) : String :=
  "\"" ++ String.mk (s.data.flatMap (fun ch => if ch = '"' then ['"', '"'] else [ch])) ++ "\""

/-- Rendering of one cell: strings are quoted, numbers are bare. -/
def renderCell : CellVal → String
  | .str s => csvQuote s
  | .num n => natStr n

/-- Rendering of one row under a field list: look each field up in the
row object (missing fields become the empty default). -/
def renderDataCell (row : List (String × CellVal)) (f : String) : String :=
  match row.lookup f with
  | some v => renderCell v
  | none => "\"\""

/-- `new Parser({ fields }).parse(rows)`: a quoted header line from the
field names followed by one line per row, all joined with newlines. -/
def json2csvParse (fields : List String) (rows : List (List (String × CellVal))) : String :=
  jsJoinC '\n'
    (jsJoinC ',' (fields.map csvQuote) ::
      rows.map (fun r => jsJoinC ',' (fields.map (renderDataCell r))))

/-! ## Aggregation drivers -/

/-- The per-day loop of the threats (and credentials) route `POST`: one
cell per day, each paired with its fetch outcome (`none` = the fetch
threw after exhausting its policy). Returns the `partial` flag, the
accumulated `dailyResults` (day, count) pairs, and — for observability —
the list of days actually queried. On a failure the loop sets the flag
and `break`s. -/
def runSingle : List (String × Option Nat) → Bool × List (String × Nat) × List String
  | [] => (false, [], [])
  | (day, outcome) :: rest =>
    match outcome with
    | none => (true, [], [day])
    | some count =>
      let r := runSingle rest
      (r.1, (day, count) :: r.2.1, day :: r.2.2)

/-- The inner day loop of the bulk route `POST` for one keyword:
`rowData["day" + (i+1)] = count` on success, `= 0` on a caught error,
never breaking. `g i` is the fetch outcome for day index `i`. -/
def bulkRowCells (g : Nat → Option Nat) : Nat → List String → List (String × Nat)
  | _, [] => []
  | i, _day :: rest => ("day" ++ natStr (i + 1), (g i).getD 0) :: bulkRowCells g (i + 1) rest

/-- The outer keyword loop of the bulk route `POST`: one row object per
keyword, starting `{ keyword }` then the day cells. `f t i` is the
fetch outcome for keyword index `t` and day index `i`. -/
def bulkProcessAux (days : List String) (f : Nat → Nat → Option Nat) :
    Nat → List String → List (String × List (String × Nat))
  | _, [] => []
  | t, kw :: rest => (kw, bulkRowCells (f t) 0 days) :: bulkProcessAux days f (t + 1) rest

/-- The bulk route's whole keyword × day aggregation. -/
def bulkProcess (keywords days : List String) (f : Nat → Nat → Option Nat) :
    List (String × List (String × Nat)) :=
  bulkProcessAux days f 0 keywords

/-- The CSV produced by the bulk route `POST` at reference instant
`now`: fields are `keyword` followed by the positional `day1…day7`
keys (this route never re-labels its header). -/
def bulkPOSTcsv (now : Int) (keywords : List String) (f : Nat → Nat → Option Nat) : String :=
  let days := getLast7DaysExcludingToday now
  let results := bulkProcess keywords days f
  let rows := results.map (fun r => ("keyword", CellVal.str r.1) :: r.2.map (fun c => (c.1, CellVal.num c.2)))
  let fields := "keyword" :: (List.range days.length).map (fun i => "day" ++ natStr (i + 1))
  json2csvParse fields rows

/-! ## The monthly route: per-month row and header re-labeling -/

/-- The monthly route's single result row: `{ keyword }` then
`resultRow["month" + (i+1)] = count` (or `0` on a caught error) for
each of the `n` months. -/
def monthlyCells (f : Nat → Option Nat) (n : Nat) : List (String × CellVal) :=
  (List.range n).map (fun i => ("month" ++ natStr (i + 1), CellVal.num ((f i).getD 0)))

/-- The header-patching loop of the monthly route `POST`:
`for (i = 0; i < months.length; i++) headerColumns[i + 1] = months[i].label`. -/
def setLoop : List String → List String → Nat → List String
  | cols, [], _ => cols
  | cols, l :: rest, i => setLoop (jsSetAt cols (i + 1) l) rest (i + 1)

/-- The monthly route's field list: `["keyword", "month1", …, "monthN"]`. -/
def monthFields (n : Nat) : List String :=
  "keyword" :: (List.range n).map (fun i => "month" ++ natStr (i + 1))

/-- Lines 113–128 of the monthly route `POST`: serialize with the
positional `month1…monthN` placeholder fields, split the raw CSV into
lines, overwrite header columns `1…N` with the real month labels, and
join everything back. -/
def exportMonthlyCsv (months : List MonthInterval) (resultRow : List (String × CellVal)) : String :=
  let fields := monthFields months.length
  let rawCsv := json2csvParse fields [resultRow]
  let csvLines := jsSplitC '\n' rawCsv
  let finalLines :=
    match csvLines with
    | [] => []
    | h :: t => jsJoinC ',' (setLoop (jsSplitC ',' h) (months.map MonthInterval.label) 0) :: t
  jsJoinC '\n' finalLines

/-- The monthly route `POST` at reference instant `now`, for a keyword
and a per-month fetch-outcome oracle: generate the 12 months, build the
row, export with header re-labeling. -/
def monthlyPOSTcsv (now : Int) (keyword : String) (f : Nat → Option Nat) : String :=
  let months := getLast12MonthsExcludingCurrent now
  let resultRow := ("keyword", CellVal.str keyword) :: monthlyCells f months.length
  exportMonthlyCsv months resultRow

/-! ## The telegram bulk route `POST` (retry log and timeout budget) -/

/-- Retry-log entry pushed when a cell succeeded only after retries. -/
def recoveredMsg (keyword day : String) : String :=
  "Successfully recovered \"" ++ keyword ++ "\" on " ++ day ++ " after retries"

/-- Retry-log entry pushed when a cell's fetch threw. -/
def failedMsg (keyword day : String) : String :=
  "Failed to process \"" ++ keyword ++ "\" on " ++ day ++ " after retries"

/-- Retry-log entry pushed when the inner timeout check fires. -/
def timeoutStopMsg : String :=
  "Processing stopped due to timeout - not all keywords completed"

/-- Retry-log entry pushed when the outer timeout check fires. -/
def timeoutIncompleteMsg (done total : Nat) : String :=
  "Processing incomplete: " ++ natStr done ++ "/" ++ natStr total ++
    " keywords processed due to timeout"

/-- The inner day loop of the telegram bulk `POST` for one keyword.
`clock k` is the value of the `k`-th evaluation of
`Date.now() - startTime > TIMEOUT_LIMIT` (wall-clock time is an
external input); `g i` is cell `i`'s fetch result — `some (count,
hadRetries)` on success, `none` when `fetchDailyTotal` threw. Returns
the row cells, the updated retry log and the next check index. -/
def tgInner (clock : Nat → Bool) (g : Nat → Option (Nat × Bool)) (keyword : String) :
    List String → Nat → Nat → List (String × CellVal) → List String →
    List (String × CellVal) × List String × Nat
  | [], _, k, row, log => (row, log, k)
  | day :: rest, i, k, row, log =>
    if clock k then (row, log ++ [timeoutStopMsg], k + 1)
    else
      match g i with
      | some (count, hadRetries) =>
        tgInner clock g keyword rest (i + 1) (k + 1) (row ++ [(day, CellVal.num count)])
          (if hadRetries then log ++ [recoveredMsg keyword day] else log)
      | none =>
        tgInner clock g keyword rest (i + 1) (k + 1) (row ++ [(day, CellVal.num 0)])
          (log ++ [failedMsg keyword day])

/-- The outer keyword loop of the telegram bulk `POST`: run the inner
loop, push the row, then re-check the timeout budget. `total` is the
uploaded keyword count. -/
def tgOuter (clock : Nat → Bool) (days : List String) (f : Nat → Nat → Option (Nat × Bool))
    (total : Nat) :
    List String → Nat → Nat → List (List (String × CellVal)) → List String →
    List (List (String × CellVal)) × List String
  | [], _, _, rows, log => (rows, log)
  | kw :: rest, t, k, rows, log =>
    let inner := tgInner clock (f t) kw days 0 k [("keyword", CellVal.str kw)] log
    let rows := rows ++ [inner.1]
    if clock inner.2.2 then (rows, inner.2.1 ++ [timeoutIncompleteMsg rows.length total])
    else tgOuter clock days f total rest (t + 1) (inner.2.2 + 1) rows inner.2.1

/-- The telegram bulk `POST` at reference instant `now`: aggregate, then
serialize with the actual day strings as field keys, and append the
retry-information trailer when the retry log is nonempty. -/
def telegramBulkCsv (now : Int) (keywords : List String)
    (f : Nat → Nat → Option (Nat × Bool)) (clock : Nat → Bool) : String :=
  let days := getLast7DaysExcludingToday now
  let run := tgOuter clock days f keywords.length keywords 0 0 [] []
  let fields := "keyword" :: days
  let rawCsv := json2csvParse fields run.1
  if run.2 ≠ [] then
    rawCsv ++ "\n\n# Retry Information:\n" ++
      String.join (run.2.map (fun l => "# " ++ l ++ "\n")) ++
      "# Note: Failed requests were retried up to 3 times with exponential backoff\n"
  else rawCsv

/-! ## Theorems -/

/-- On its last allowed attempt (`attempt = maxRetries`) the fetch loop
body never takes a `continue` path: every guard that retries requires
`attempt < maxRetries`, and the `catch` block rethrows when
`attempt === maxRetries`. -/
theorem stepOf_last_attempt (keyword day : String) (o : Outcome) (m : Nat) :
    stepOf keyword day o m m ≠ StepOut.retry := by
  have hc : ∀ e : JsError, classifyCatch e m m = StepOut.thr e := by
    intro e; simp [classifyCatch]
  cases o with
  | resp status bodyText parsed =>
    simp only [stepOf]
    split
    · cases parsed with
      | ok c => simp
      | error e => simp [hc]
    · have h1 : ¬(status = 429 ∧ m < m) := by omega
      have h2 : ¬(500 ≤ status ∧ m < m) := by omega
      rw [if_neg h1, if_neg h2, hc]
      simp
  | netErr e => simp [stepOf, hc]

/-- C10: the trailing `return { count: 0, hadRetries }` after the retry
loop of the telegram route's `fetchDailyTotal` is unreachable: for every
sequence of upstream outcomes and every `maxRetries ≥ 1`, the function
returns from inside the loop or throws, never falling through. -/
theorem c10_fallthrough_unreachable (keyword day : String) (responses : Nat → Outcome)
    (maxRetries : Nat) (h : 1 ≤ maxRetries) (b : Bool) :
    fetchDailyTotal keyword day responses maxRetries ≠ FetchResult.fellThrough b := by
  have key : ∀ fuel attempt hadR, attempt + fuel = maxRetries + 1 → 1 ≤ fuel →
      fetchAux keyword day responses maxRetries fuel attempt hadR ≠ FetchResult.fellThrough b := by
    intro fuel
    induction fuel with
    | zero => intro attempt hadR _ h2; omega
    | succ f ih =>
      intro attempt hadR hsum _
      cases hs : stepOf keyword day (responses attempt) attempt maxRetries with
      | ret c => simp [fetchAux, hs]
      | thr e => simp [fetchAux, hs]
      | retry =>
        rcases Nat.eq_zero_or_pos f with hf | hf
        · subst hf
          have ha : attempt = maxRetries := by omega
          rw [ha] at hs
          exact absurd hs (stepOf_last_attempt keyword day _ maxRetries)
        · simp only [fetchAux, hs]
          exact ih (attempt + 1) true (by omega) hf
  exact key maxRetries 1 false (by omega) h

/-- Witness for C10 at a concrete input. -/
theorem c10_fallthrough_unreachable_witness :
    1 ≤ 3 ∧ fetchDailyTotal "k" "2024-03-08" (fun _ => Outcome.resp 200 "" (Except.ok 5)) 3
      ≠ FetchResult.fellThrough false :=
  ⟨by decide, c10_fallthrough_unreachable "k" "2024-03-08" _ 3 (by decide) false⟩

/-- C1 counterexample: with the default `maxRetries = 3` the loop makes
at most 3 attempts (2 retries), not 4. Against responses that are 500
for the first three attempts and a parseable 200 on the fourth, the
claimed fourth attempt would succeed — but `fetchDailyTotal` fails
without ever consulting it. -/
theorem c1_counterexample :
    fetchDailyTotal "k" "2024-03-08"
      (fun n => if n ≤ 3 then Outcome.resp 500 "boom" (Except.ok 0)
                else Outcome.resp 200 "" (Except.ok 7)) 3
      = FetchResult.failure (httpError "2024-03-08" "k" 500 "boom") := by decide

/-- C1 amended: with `maxRetries = 3`, `[429, 429, 200]` yields
`Success` with `degraded = true` and the 200 body's total; an all-500
stream yields `Failure` after exactly 2 retries, i.e. 3 attempts total:
a 200 presented at the third attempt is still consumed (third conjunct),
while a 200 presented only at the fourth attempt is not (fourth
conjunct, with a different response stream than the counterexample). -/
theorem c1_amended_retry_budget :
    fetchDailyTotal "k" "2024-03-08"
        (fun n => if n ≤ 2 then Outcome.resp 429 "rate" (Except.ok 0)
                  else Outcome.resp 200 "" (Except.ok 42)) 3
      = FetchResult.success 42 true
    ∧ fetchDailyTotal "k" "2024-03-08" (fun _ => Outcome.resp 500 "boom" (Except.ok 0)) 3
      = FetchResult.failure (httpError "2024-03-08" "k" 500 "boom")
    ∧ fetchDailyTotal "k" "2024-03-08"
        (fun n => if n ≤ 2 then Outcome.resp 500 "boom" (Except.ok 0)
                  else Outcome.resp 200 "" (Except.ok 9)) 3
      = FetchResult.success 9 true
    ∧ fetchDailyTotal "k" "2024-03-08"
        (fun n => if n ≤ 3 then Outcome.resp 500 "oops" (Except.ok 0)
                  else Outcome.resp 200 "" (Except.ok 9)) 3
      = FetchResult.failure (httpError "2024-03-08" "k" 500 "oops") := by
  refine ⟨by decide, by decide, by decide, by decide⟩

/-- C2 counterexample: the `catch` block classifies an error as
retryable when `error.message.includes('fetch')`, and the thrown HTTP
error message embeds the keyword — so for the keyword `fetch`, a 404 on
the first attempt is retried (and here even converted into a success by
the second attempt), contradicting "fails immediately with no retry". -/
theorem c2_counterexample :
    fetchDailyTotal "fetch" "2024-03-08"
      (fun n => if n = 1 then Outcome.resp 404 "nf" (Except.ok 0)
                else Outcome.resp 200 "" (Except.ok 5)) 3
      = FetchResult.success 5 true := by decide

/-- C2 amended: a 404 response on the first attempt makes
`fetchDailyTotal` fail immediately — no retry, regardless of the
remaining budget and of all later upstream outcomes — provided the
constructed error message (which embeds the day, the keyword and the
response body) does not contain the substring `fetch`. -/
theorem c2_amended_404_immediate (keyword day bodyText : String) (parsed : Except JsError Nat)
    (responses : Nat → Outcome) (maxRetries : Nat)
    (hmax : 1 ≤ maxRetries)
    (hfirst : responses 1 = Outcome.resp 404 bodyText parsed)
    (hmsg : strIncludes (httpErrMsg day keyword 404 bodyText) "fetch" = false) :
    fetchDailyTotal keyword day responses maxRetries
      = FetchResult.failure (httpError day keyword 404 bodyText) := by
  obtain ⟨m, rfl⟩ : ∃ m, maxRetries = m + 1 := ⟨maxRetries - 1, by omega⟩
  unfold fetchDailyTotal
  simp only [fetchAux, hfirst, stepOf]
  rw [if_neg (by omega : ¬(200 ≤ 404 ∧ 404 ≤ 299))]
  rw [if_neg (by omega : ¬(404 = 429 ∧ 1 < m + 1))]
  rw [if_neg (by omega : ¬(500 ≤ 404 ∧ 1 < m + 1))]
  unfold classifyCatch
  by_cases h1 : (1 : Nat) = m + 1
  · rw [if_pos h1]
  · rw [if_neg h1]
    simp only [httpError] at hmsg ⊢
    rw [hmsg]
    simp

/-- Witness for the amended C2 at a concrete input. -/
theorem c2_amended_404_immediate_witness :
    (1 ≤ 3
      ∧ strIncludes (httpErrMsg "2024-03-08" "k" 404 "nf") "fetch" = false)
    ∧ fetchDailyTotal "k" "2024-03-08" (fun _ => Outcome.resp 404 "nf" (Except.ok 0)) 3
      = FetchResult.failure (httpError "2024-03-08" "k" 404 "nf") :=
  ⟨⟨by decide, by decide⟩,
    c2_amended_404_immediate "k" "2024-03-08" "nf" (Except.ok 0) _ 3 (by decide) rfl (by decide)⟩

/-- C8 counterexample: the telegram route's query builder does not
request zero result records — its payload has `size = 1`. -/
theorem c8_counterexample : (Telegram.buildDailyPayload "a" "2024-03-08").size ≠ 0 := by decide

/-- C8 amended: every query-builder variant produces a highlighted,
total-inclusive payload restricted to exactly the day's
`[T00:00:00Z, T23:59:59Z]` range and carrying the term in the free-text
query (the credentials variant prefixes its fixed structural filter,
the telegram variant adds the site filter); the threats and credentials
variants request zero result records, while the telegram variant
requests one (`size = 1`). -/
theorem c8_amended_query_builder (keyword day : String) :
    (Threats.buildDailyPayload keyword day).size = 0
    ∧ (Threats.buildDailyPayload keyword day).highlightEnabled = true
    ∧ (Threats.buildDailyPayload keyword day).includeTotal = true
    ∧ (Threats.buildDailyPayload keyword day).query = keyword
    ∧ (Threats.buildDailyPayload keyword day).dateStart = day ++ "T00:00:00Z"
    ∧ (Threats.buildDailyPayload keyword day).dateEnd = day ++ "T23:59:59Z"
    ∧ (Threats.buildDailyPayload keyword day).site = none
    ∧ (Credentials.buildDailyPayload keyword day).size = 0
    ∧ (Credentials.buildDailyPayload keyword day).highlightEnabled = true
    ∧ (Credentials.buildDailyPayload keyword day).includeTotal = true
    ∧ (Credentials.buildDailyPayload keyword day).query
        = "+basetypes:(credential-sighting) " ++ keyword
    ∧ (Credentials.buildDailyPayload keyword day).dateStart = day ++ "T00:00:00Z"
    ∧ (Credentials.buildDailyPayload keyword day).dateEnd = day ++ "T23:59:59Z"
    ∧ (Telegram.buildDailyPayload keyword day).size = 1
    ∧ (Telegram.buildDailyPayload keyword day).highlightEnabled = true
    ∧ (Telegram.buildDailyPayload keyword day).includeTotal = true
    ∧ (Telegram.buildDailyPayload keyword day).query = keyword
    ∧ (Telegram.buildDailyPayload keyword day).dateStart = day ++ "T00:00:00Z"
    ∧ (Telegram.buildDailyPayload keyword day).dateEnd = day ++ "T23:59:59Z"
    ∧ (Telegram.buildDailyPayload keyword day).site = some ["telegram"] :=
  ⟨rfl, rfl, rfl, rfl, rfl, rfl, rfl, rfl, rfl, rfl,
    rfl, rfl, rfl, rfl, rfl, rfl, rfl, rfl, rfl, rfl⟩

/-- C3: for every reference instant, the day-mode window generator
returns precisely the labels of the 7 consecutive UTC calendar days
`d-7 … d-1` preceding the day `d` containing `now` (oldest first,
contiguous, the current day excluded, the last label the day before
`now`); and at `now = 2024-03-15T12:00:00Z` the labels are
`2024-03-08 … 2024-03-14`. -/
theorem c3_day_window :
    (∀ now : Int, getLast7DaysExcludingToday now
        = (List.range 7).map (fun (j : Nat) => dateStr (now / msPerDay - 7 + (j : Int))))
    ∧ getLast7DaysExcludingToday 1710504000000
        = ["2024-03-08", "2024-03-09", "2024-03-10", "2024-03-11",
           "2024-03-12", "2024-03-13", "2024-03-14"] := by
  constructor
  · intro now
    simp only [getLast7DaysExcludingToday]
    apply List.map_congr_left
    intro j hj
    have hj7 : j < 7 := List.mem_range.mp hj
    congr 1
    simp only [msPerDay]
    omega
  · decide

/-- C4: for every reference instant whose UTC civil date lies in March
2024, the month-mode window generator returns exactly the 12 calendar
months labelled `2023-03 … 2024-02`, ascending, the current month
`2024-03` excluded, each spanning the first day of its month at
`00:00:00Z` through the last day at `23:59:59Z`. -/
theorem c4_month_window (now : Int)
    (hy : (civilFromDays (now / msPerDay)).1 = 2024)
    (hm : (civilFromDays (now / msPerDay)).2.1 = 3) :
    getLast12MonthsExcludingCurrent now =
      [{ start := "2023-03-01T00:00:00Z", stop := "2023-03-31T23:59:59Z", label := "2023-03" },
       { start := "2023-04-01T00:00:00Z", stop := "2023-04-30T23:59:59Z", label := "2023-04" },
       { start := "2023-05-01T00:00:00Z", stop := "2023-05-31T23:59:59Z", label := "2023-05" },
       { start := "2023-06-01T00:00:00Z", stop := "2023-06-30T23:59:59Z", label := "2023-06" },
       { start := "2023-07-01T00:00:00Z", stop := "2023-07-31T23:59:59Z", label := "2023-07" },
       { start := "2023-08-01T00:00:00Z", stop := "2023-08-31T23:59:59Z", label := "2023-08" },
       { start := "2023-09-01T00:00:00Z", stop := "2023-09-30T23:59:59Z", label := "2023-09" },
       { start := "2023-10-01T00:00:00Z", stop := "2023-10-31T23:59:59Z", label := "2023-10" },
       { start := "2023-11-01T00:00:00Z", stop := "2023-11-30T23:59:59Z", label := "2023-11" },
       { start := "2023-12-01T00:00:00Z", stop := "2023-12-31T23:59:59Z", label := "2023-12" },
       { start := "2024-01-01T00:00:00Z", stop := "2024-01-31T23:59:59Z", label := "2024-01" },
       { start := "2024-02-01T00:00:00Z", stop := "2024-02-29T23:59:59Z", label := "2024-02" }] := by
  simp only [getLast12MonthsExcludingCurrent]
  rw [hy, hm]
  decide

/-- Witness for C4 at `now = 2024-03-15T12:00:00Z`. -/
theorem c4_month_window_witness :
    ((civilFromDays ((1710504000000 : Int) / msPerDay)).1 = 2024
      ∧ (civilFromDays ((1710504000000 : Int) / msPerDay)).2.1 = 3)
    ∧ (getLast12MonthsExcludingCurrent 1710504000000).map MonthInterval.label
      = ["2023-03", "2023-04", "2023-05", "2023-06", "2023-07", "2023-08",
         "2023-09", "2023-10", "2023-11", "2023-12", "2024-01", "2024-02"] :=
  ⟨⟨by decide, by decide⟩, by
    rw [c4_month_window 1710504000000 (by decide) (by decide)]
    decide⟩

/-- C5: in single-term mode, if the fetch for some interval fails
irrecoverably (after every interval before it succeeded), the driver
returns `partial = true` with the results truncated to exactly the
successful prefix, and queries no interval beyond the failing one; if
no interval fails, all intervals appear and `partial = false`. Cells
pair each day with its fetch outcome (`none` = the fetch threw). -/
theorem c5_single_term_fail_fast :
    (∀ (pre post : List (String × Option Nat)) (day : String),
      (∀ c ∈ pre, c.2 ≠ none) →
      runSingle (pre ++ (day, none) :: post)
        = (true, pre.map (fun c => (c.1, c.2.getD 0)), pre.map Prod.fst ++ [day]))
    ∧ (∀ cells : List (String × Option Nat),
      (∀ c ∈ cells, c.2 ≠ none) →
      runSingle cells = (false, cells.map (fun c => (c.1, c.2.getD 0)), cells.map Prod.fst)) := by
  constructor
  · intro pre post day hpre
    induction pre with
    | nil => simp [runSingle]
    | cons c rest ih =>
      obtain ⟨d, o⟩ := c
      have ho : o ≠ none := hpre (d, o) (by simp)
      obtain ⟨v, rfl⟩ := Option.ne_none_iff_exists'.mp ho
      have ih2 := ih (fun c hc => hpre c (List.mem_cons_of_mem _ hc))
      simp [runSingle, ih2]
  · intro cells h
    induction cells with
    | nil => simp [runSingle]
    | cons c rest ih =>
      obtain ⟨d, o⟩ := c
      have ho : o ≠ none := h (d, o) (by simp)
      obtain ⟨v, rfl⟩ := Option.ne_none_iff_exists'.mp ho
      have ih2 := ih (fun c hc => h c (List.mem_cons_of_mem _ hc))
      simp [runSingle, ih2]

/-- Witness for C5: a failure at the second of three days truncates the
results after day one and stops querying; an all-success run keeps
everything with `partial = false`. -/
theorem c5_single_term_fail_fast_witness :
    runSingle [("a", some 1), ("b", none), ("c", some 2)] = (true, [("a", 1)], ["a", "b"])
    ∧ runSingle [("a", some 1), ("b", some 0)] = (false, [("a", 1), ("b", 0)], ["a", "b"]) :=
  ⟨by simpa using c5_single_term_fail_fast.1 [("a", some 1)] [("c", some 2)] "b" (by decide),
   by simpa using c5_single_term_fail_fast.2 [("a", some 1), ("b", some 0)] (by decide)⟩

/-- The bulk route's inner day loop produces one cell per day. -/
theorem bulkRowCells_length (g : Nat → Option Nat) :
    ∀ (days : List String) (i : Nat), (bulkRowCells g i days).length = days.length := by
  intro days
  induction days with
  | nil => intro i; simp [bulkRowCells]
  | cons d rest ih => intro i; simp [bulkRowCells, ih]

/-- Cell `j` of a bulk row (day keys counted from `i + 1`) records the
key `day(i+j+1)` and the fetched count, degraded to `0` on failure. -/
theorem bulkRowCells_getD (g : Nat → Option Nat) :
    ∀ (days : List String) (i j : Nat), j < days.length →
      (bulkRowCells g i days).getD j ("", 0) = ("day" ++ natStr (i + j + 1), (g (i + j)).getD 0) := by
  intro days
  induction days with
  | nil => intro i j h; simp at h
  | cons d rest ih =>
    intro i j h
    cases j with
    | zero => simp [bulkRowCells]
    | succ j' =>
      simp only [bulkRowCells, List.getD_cons_succ]
      rw [ih (i + 1) j' (by simpa using h)]
      have e1 : i + 1 + j' + 1 = i + (j' + 1) + 1 := by omega
      have e2 : i + 1 + j' = i + (j' + 1) := by omega
      rw [e1, e2]

/-- The bulk route's outer loop produces one row per keyword, in order. -/
theorem bulkProcessAux_map_fst (days : List String) (f : Nat → Nat → Option Nat) :
    ∀ (kws : List String) (t : Nat), (bulkProcessAux days f t kws).map Prod.fst = kws := by
  intro kws
  induction kws with
  | nil => intro t; simp [bulkProcessAux]
  | cons kw rest ih => intro t; simp [bulkProcessAux, ih]

/-- Row `t` of the bulk aggregation is keyword `t` with its day cells. -/
theorem bulkProcessAux_getD (days : List String) (f : Nat → Nat → Option Nat) :
    ∀ (kws : List String) (t0 t : Nat), t < kws.length →
      (bulkProcessAux days f t0 kws).getD t ("", [])
        = (kws.getD t "", bulkRowCells (f (t0 + t)) 0 days) := by
  intro kws
  induction kws with
  | nil => intro t0 t h; simp at h
  | cons kw rest ih =>
    intro t0 t h
    cases t with
    | zero => simp [bulkProcessAux]
    | succ t' =>
      simp only [bulkProcessAux, List.getD_cons_succ]
      rw [ih (t0 + 1) t' (by simpa using h)]
      have e1 : t0 + 1 + t' = t0 + (t' + 1) := by omega
      rw [e1]

/-- C6: in bulk mode, for every uploaded keyword list and every pattern
of per-cell fetch failures, the output has exactly one row per input
term in order with no missing rows, every row has one cell per day (a
failing cell does not stop later cells), and a failed `(term, day)`
cell records `0`. -/
theorem c6_bulk_no_missing_rows (keywords days : List String) (f : Nat → Nat → Option Nat) :
    (bulkProcess keywords days f).map Prod.fst = keywords
    ∧ (∀ r ∈ bulkProcess keywords days f, r.2.length = days.length)
    ∧ (∀ t j, t < keywords.length → j < days.length →
        ((bulkProcess keywords days f).getD t ("", [])).2.getD j ("", 0)
          = ("day" ++ natStr (j + 1), (f t j).getD 0)) := by
  refine ⟨bulkProcessAux_map_fst days f keywords 0, ?_, ?_⟩
  · intro r hr
    have key : ∀ (kws : List String) (t0 : Nat) (r : String × List (String × Nat)),
        r ∈ bulkProcessAux days f t0 kws → r.2.length = days.length := by
      intro kws
      induction kws with
      | nil => intro t0 r hr; simp [bulkProcessAux] at hr
      | cons kw rest ih =>
        intro t0 r hr
        rcases List.mem_cons.mp hr with hr | hr
        · subst hr; exact bulkRowCells_length (f t0) days 0
        · exact ih (t0 + 1) r hr
    exact key keywords 0 r hr
  · intro t j ht hj
    rw [show bulkProcess keywords days f = bulkProcessAux days f 0 keywords from rfl,
      bulkProcessAux_getD days f keywords 0 t ht]
    simpa using bulkRowCells_getD (f t) days 0 j hj

/-- Witness for C6: two keywords, a failure at row 0 day 1; that cell is
`("day2", 0)` and both rows are present. -/
theorem c6_bulk_no_missing_rows_witness :
    (bulkProcess ["a", "b"] ["x", "y"] (fun t j => if t = 0 ∧ j = 1 then none else some 3)).map
        Prod.fst = ["a", "b"]
    ∧ (0 < 2 ∧ 1 < 2)
    ∧ ((bulkProcess ["a", "b"] ["x", "y"]
          (fun t j => if t = 0 ∧ j = 1 then none else some 3)).getD 0 ("", [])).2.getD 1 ("", 0)
        = ("day2", 0) :=
  ⟨(c6_bulk_no_missing_rows ["a", "b"] ["x", "y"] _).1, ⟨by decide, by decide⟩, by
    have := (c6_bulk_no_missing_rows ["a", "b"] ["x", "y"]
      (fun t j => if t = 0 ∧ j = 1 then none else some 3)).2.2 0 1 (by decide) (by decide)
    simpa using this⟩

/-- C9 counterexample: the plain bulk route's output cannot distinguish
"no data found" from "could not retrieve data": a run in which every
cell's upstream count is truly `0` and a run in which every cell's
fetch failed irrecoverably (degraded to `0`) produce byte-identical
CSV responses. -/
theorem c9_counterexample :
    bulkPOSTcsv 1710504000000 ["k"] (fun _ _ => some 0)
      = bulkPOSTcsv 1710504000000 ["k"] (fun _ _ => none) := by decide

/-- C9 amended: the telegram bulk driver and the single-term driver do
let the caller tell a true zero apart from a degraded zero — the
telegram bulk CSV gains a retry-information trailer exactly when a cell
fails, and the single-term response flips its `partial` flag — but the
plain bulk route (see the counterexample) does not. -/
theorem c9_amended_distinguishable :
    telegramBulkCsv 1710504000000 ["k"] (fun _ _ => some (0, false)) (fun _ => false)
      ≠ telegramBulkCsv 1710504000000 ["k"]
          (fun _ i => if i = 0 then none else some (0, false)) (fun _ => false)
    ∧ (runSingle [("2024-03-08", some 0)]).1 = false
    ∧ (runSingle [("2024-03-08", none)]).1 = true
    ∧ runSingle [("2024-03-08", some 0)] ≠ runSingle [("2024-03-08", none)] := by
  refine ⟨by decide, by decide, by decide, by decide⟩

/-- Splitting on a character absent from the list yields the list itself. -/
theorem splitCh_of_not_mem {c : Char} : ∀ {l : List Char}, c ∉ l → splitCh c l = [l] := by
  intro l
  induction l with
  | nil => intro _; rfl
  | cons a rest ih =>
    intro h
    have ha : ¬(a = c) := fun e => h (by simp [e])
    have hr : c ∉ rest := fun e => h (by simp [e])
    simp only [splitCh, if_neg ha, ih hr]

/-- Splitting at the first separator occurrence peels off the prefix. -/
theorem splitCh_append_cons {c : Char} :
    ∀ {a : List Char}, c ∉ a → ∀ b, splitCh c (a ++ c :: b) = a :: splitCh c b := by
  intro a
  induction a with
  | nil => intro _ b; simp [splitCh]
  | cons x xs ih =>
    intro h b
    have hx : ¬(x = c) := fun e => h (by simp [e])
    have hxs : c ∉ xs := fun e => h (by simp [e])
    simp only [List.cons_append, splitCh, if_neg hx, List.append_eq, ih hxs]

/-- Splitting undoes joining when no piece contains the separator. -/
theorem splitCh_icalateCh {c : Char} :
    ∀ {parts : List (List Char)}, parts ≠ [] → (∀ p ∈ parts, c ∉ p) →
      splitCh c (icalateCh c parts) = parts := by
  intro parts
  induction parts with
  | nil => intro h _; exact absurd rfl h
  | cons p rest ih =>
    intro _ hall
    cases rest with
    | nil => exact splitCh_of_not_mem (hall p (by simp))
    | cons q qs =>
      have e : icalateCh c (p :: q :: qs) = p ++ c :: icalateCh c (q :: qs) := rfl
      rw [e, splitCh_append_cons (hall p (by simp)),
        ih (by simp) (fun r hr => hall r (List.mem_cons_of_mem _ hr))]

/-- A character of a joined list is the separator or lies in some piece. -/
theorem mem_of_mem_icalateCh {c x : Char} :
    ∀ {parts : List (List Char)}, x ∈ icalateCh c parts → x = c ∨ ∃ p ∈ parts, x ∈ p := by
  intro parts
  induction parts with
  | nil => intro h; simp [icalateCh] at h
  | cons p rest ih =>
    intro h
    cases rest with
    | nil => exact Or.inr ⟨p, by simp, h⟩
    | cons q qs =>
      rw [show icalateCh c (p :: q :: qs) = p ++ c :: icalateCh c (q :: qs) from rfl] at h
      rcases List.mem_append.mp h with h | h
      · exact Or.inr ⟨p, by simp, h⟩
      · rcases List.mem_cons.mp h with h | h
        · exact Or.inl h
        · rcases ih h with h | ⟨r, hr, hx⟩
          · exact Or.inl h
          · exact Or.inr ⟨r, List.mem_cons_of_mem _ hr, hx⟩

/-- No piece produced by splitting contains the separator. -/
theorem not_mem_of_mem_splitCh {c : Char} :
    ∀ {l : List Char} {p : List Char}, p ∈ splitCh c l → c ∉ p := by
  intro l
  induction l with
  | nil => intro p hp; simp [splitCh] at hp; simp [hp]
  | cons a rest ih =>
    intro p hp
    by_cases ha : a = c
    · simp only [splitCh, if_pos ha] at hp
      rcases List.mem_cons.mp hp with h | h
      · simp [h]
      · exact ih h
    · simp only [splitCh, if_neg ha] at hp
      rcases hsp : splitCh c rest with _ | ⟨h1, t1⟩
      · rw [hsp] at hp
        rcases List.mem_cons.mp hp with h | h
        · subst h; intro hc
          rcases List.mem_cons.mp hc with h | h
          · exact ha h.symm
          · simp at h
        · simp at h
      · rw [hsp] at hp
        rcases List.mem_cons.mp hp with h | h
        · subst h
          intro hc
          rcases List.mem_cons.mp hc with h | h
          · exact ha h.symm
          · exact ih (hsp ▸ List.mem_cons_self h1 t1) h
        · exact ih (hsp ▸ List.mem_cons_of_mem h1 h)

/-- The header-patching loop overwrites columns `i+1 … i+labels.length`
with the labels, keeping the first `i+1` columns. -/
theorem setLoop_spec :
    ∀ (labels : List String) (i : Nat) (cols : List String),
      cols.length = i + 1 + labels.length →
      setLoop cols labels i = cols.take (i + 1) ++ labels := by
  intro labels
  induction labels with
  | nil =>
    intro i cols h
    simp only [List.length_nil] at h
    simp [setLoop, List.take_of_length_le (show cols.length ≤ i + 1 by omega)]
  | cons l rest ih =>
    intro i cols h
    simp only [List.length_cons] at h
    simp only [setLoop, jsSetAt]
    rw [ih (i + 1) (cols.set (i + 1) l) (by simp only [List.length_set]; omega)]
    have hlt : i + 1 < cols.length := by omega
    rw [List.set_eq_take_cons_drop _ hlt]
    rw [List.take_append_eq_append_take, List.take_take]
    have h1 : min (i + 1 + 1) (i + 1) = i + 1 := by omega
    have h2 : (cols.take (i + 1)).length = i + 1 := by
      rw [List.length_take]; omega
    rw [h1, h2]
    simp only [show i + 1 + 1 - (i + 1) = 1 from by omega]
    simp

/-- Characters of a concatenation. -/
theorem strData_append (s t : String) : (s ++ t).data = s.data ++ t.data := rfl

/-- Rebuilding a string from its characters. -/
theorem strData_mk (s : String) : String.mk s.data = s := rfl

/-- `digitChar` always yields one of the ten digit characters. -/
theorem digitChar_mem (n : Nat) : digitChar n ∈ digitCharList := List.get_mem _ _ _

/-- Every character produced by the digit expansion is a digit. -/
theorem natDigsAux_mem :
    ∀ (fuel n : Nat) (acc : List Char), (∀ ch ∈ acc, ch ∈ digitCharList) →
      ∀ ch ∈ natDigsAux fuel n acc, ch ∈ digitCharList := by
  intro fuel
  induction fuel with
  | zero => intro n acc hacc ch hch; exact hacc ch hch
  | succ f ih =>
    intro n acc hacc ch hch
    simp only [natDigsAux] at hch
    by_cases hn : n < 10
    · rw [if_pos hn] at hch
      rcases List.mem_cons.mp hch with h | h
      · subst h; exact digitChar_mem n
      · exact hacc ch h
    · rw [if_neg hn] at hch
      refine ih (n / 10) _ (fun c hc => ?_) ch hch
      rcases List.mem_cons.mp hc with h | h
      · subst h; exact digitChar_mem n
      · exact hacc c h

/-- Every character of a rendered natural number is a digit. -/
theorem natStr_mem (n : Nat) : ∀ ch ∈ (natStr n).data, ch ∈ digitCharList :=
  natDigsAux_mem (n + 1) n [] (by simp)

/-- Characters of the padding literals. -/
theorem zeroStr1 : ("0" : String).data = ['0'] := rfl

theorem zeroStr2 : ("00" : String).data = ['0', '0'] := rfl

theorem zeroStr3 : ("000" : String).data = ['0', '0', '0'] := rfl

/-- Every character of a two-digit padding is a digit. -/
theorem pad2_mem (n : Nat) : ∀ ch ∈ (pad2 n).data, ch ∈ digitCharList := by
  intro ch hch
  unfold pad2 at hch
  by_cases h : n < 10
  · rw [if_pos h, strData_append] at hch
    rcases List.mem_append.mp hch with h2 | h2
    · simp only [zeroStr1, List.mem_cons, List.not_mem_nil, or_false, or_self] at h2
      subst h2; decide
    · exact natStr_mem n ch h2
  · rw [if_neg h] at hch
    exact natStr_mem n ch hch

/-- Every character of a four-digit padding is a digit. -/
theorem pad4_mem (n : Nat) : ∀ ch ∈ (pad4 n).data, ch ∈ digitCharList := by
  intro ch hch
  unfold pad4 at hch
  split at hch <;> [skip; split at hch] <;> [skip; skip; split at hch]
  all_goals
    first
    | exact natStr_mem n ch hch
    | (rw [strData_append] at hch
       rcases List.mem_append.mp hch with h2 | h2
       · simp only [zeroStr1, zeroStr2, zeroStr3, List.mem_cons, List.not_mem_nil,
           or_false, or_self] at h2
         subst h2; decide
       · exact natStr_mem n ch h2)

/-- Characters of the date separator literal. -/
theorem dashStr : ("-" : String).data = ['-'] := rfl

/-- Every character of an ISO date is a digit or a dash. -/
theorem dateStr_mem (z : Int) : ∀ ch ∈ (dateStr z).data, ch ∈ digitCharList ∨ ch = '-' := by
  intro ch hch
  unfold dateStr at hch
  simp only [strData_append, List.append_assoc, List.mem_append, dashStr,
    List.mem_cons, List.not_mem_nil, or_false] at hch
  rcases hch with h | h | h | h | h
  · exact Or.inl (pad4_mem _ ch h)
  · exact Or.inr h
  · exact Or.inl (pad2_mem _ ch h)
  · exact Or.inr h
  · exact Or.inl (pad2_mem _ ch h)

/-- Every character of a generated month label is a digit or a dash. -/
theorem monthsFromYM_label_mem (y0 : Int) (m0 : Nat) :
    ∀ mi ∈ monthsFromYM y0 m0, ∀ ch ∈ mi.label.data, ch ∈ digitCharList ∨ ch = '-' := by
  intro mi hmi ch hch
  unfold monthsFromYM at hmi
  rw [List.mem_reverse] at hmi
  rcases List.mem_map.mp hmi with ⟨j, _, hj⟩
  have hlab : mi.label = strTake (dateStr (daysFromCivil ((y0 * 12 + ((m0 : Int) - 1)
      - ((j : Int) + 1)) / 12) (((y0 * 12 + ((m0 : Int) - 1) - ((j : Int) + 1)) % 12).toNat + 1)
      1)) 7 := by rw [← hj]
  rw [hlab] at hch
  unfold strTake at hch
  exact dateStr_mem _ ch (List.take_subset _ _ hch)

/-- Digits and dashes are neither separators nor quotes. -/
theorem digit_or_dash_ok {ch : Char} (h : ch ∈ digitCharList ∨ ch = '-') :
    ch ≠ ',' ∧ ch ≠ '\n' ∧ ch ≠ '"' := by
  rcases h with h | rfl
  · simp only [digitCharList, List.mem_cons, List.not_mem_nil, or_false] at h
    rcases h with rfl | rfl | rfl | rfl | rfl | rfl | rfl | rfl | rfl | rfl <;>
      exact ⟨by decide, by decide, by decide⟩
  · exact ⟨by decide, by decide, by decide⟩

/-- Characters of a placeholder field name `month<i>` are CSV-safe. -/
theorem monthKey_chars (i : Nat) :
    ∀ ch ∈ ("month" ++ natStr i).data, ch ≠ ',' ∧ ch ≠ '\n' ∧ ch ≠ '"' := by
  intro ch hch
  rw [strData_append] at hch
  rcases List.mem_append.mp hch with h | h
  · rw [show ("month" : String).data = ['m', 'o', 'n', 't', 'h'] from rfl] at h
    simp only [List.mem_cons, List.not_mem_nil, or_false] at h
    rcases h with rfl | rfl | rfl | rfl | rfl <;> exact ⟨by decide, by decide, by decide⟩
  · exact digit_or_dash_ok (Or.inl (natStr_mem i ch h))

/-- Quote-doubling is the identity on quote-free text. -/
theorem flatMap_quote_of_no_quote :
    ∀ {l : List Char}, (∀ ch ∈ l, ch ≠ '"') →
      l.flatMap (fun ch => if ch = '"' then ['"', '"'] else [ch]) = l := by
  intro l
  induction l with
  | nil => intro _; rfl
  | cons a rest ih =>
    intro h
    have ha : ¬(a = '"') := h a (by simp)
    simp only [List.flatMap_cons, if_neg ha, List.singleton_append, List.cons.injEq, true_and]
    exact ih (fun c hc => h c (List.mem_cons_of_mem _ hc))

/-- Characters of a quoted quote-free field. -/
theorem csvQuote_data {s : String} (h : ∀ ch ∈ s.data, ch ≠ '"') :
    (csvQuote s).data = '"' :: (s.data ++ ['"']) := by
  unfold csvQuote
  rw [strData_append, strData_append]
  rw [show (String.mk (s.data.flatMap (fun ch => if ch = '"' then ['"', '"'] else [ch]))).data
      = s.data.flatMap (fun ch => if ch = '"' then ['"', '"'] else [ch]) from rfl]
  rw [flatMap_quote_of_no_quote h]
  rfl

/-- String-level split/join round trip. -/
theorem jsSplitC_jsJoinC {c : Char} (parts : List String) (hne : parts ≠ [])
    (h : ∀ p ∈ parts, c ∉ p.data) : jsSplitC c (jsJoinC c parts) = parts := by
  unfold jsSplitC jsJoinC
  rw [show (String.mk (icalateCh c (parts.map String.data))).data
      = icalateCh c (parts.map String.data) from rfl]
  rw [splitCh_icalateCh (by simpa using hne)
    (fun p hp => by
      rcases List.mem_map.mp hp with ⟨q, hq, rfl⟩
      exact h q hq)]
  have h1 : parts.map (String.mk ∘ String.data) = parts.map id :=
    List.map_congr_left fun s _ => strData_mk s
  rw [List.map_map, h1, List.map_id]

/-- Splitting a two-line string whose first line is newline-free. -/
theorem jsSplitC_two_lines (hdr rest : String) (h : '\n' ∉ hdr.data) :
    jsSplitC '\n' (String.mk (hdr.data ++ '\n' :: rest.data)) = hdr :: jsSplitC '\n' rest := by
  unfold jsSplitC
  rw [show (String.mk (hdr.data ++ '\n' :: rest.data)).data = hdr.data ++ '\n' :: rest.data
    from rfl]
  rw [splitCh_append_cons h]
  simp [strData_mk]

/-- Characters of the monthly route's placeholder field names are CSV-safe. -/
theorem monthFields_chars (n : Nat) :
    ∀ fld ∈ monthFields n, ∀ ch ∈ fld.data, ch ≠ ',' ∧ ch ≠ '\n' ∧ ch ≠ '"' := by
  intro fld hf
  rcases List.mem_cons.mp hf with rfl | hf
  · decide
  · rcases List.mem_map.mp hf with ⟨i, _, rfl⟩
    exact monthKey_chars (i + 1)

/-- Characters of the quoted placeholder header cells are CSV-safe. -/
theorem monthFields_quoted_chars (n : Nat) :
    ∀ p ∈ (monthFields n).map csvQuote, ∀ ch ∈ p.data, ch ≠ ',' ∧ ch ≠ '\n' := by
  intro p hp ch hch
  rcases List.mem_map.mp hp with ⟨fld, hf, rfl⟩
  rw [csvQuote_data (fun c hc => (monthFields_chars n fld hf c hc).2.2)] at hch
  rcases List.mem_cons.mp hch with rfl | hch
  · exact ⟨by decide, by decide⟩
  · rcases List.mem_append.mp hch with h | h
    · exact ⟨(monthFields_chars n fld hf ch h).1, (monthFields_chars n fld hf ch h).2.1⟩
    · simp only [List.mem_singleton] at h
      subst h
      exact ⟨by decide, by decide⟩

/-- The monthly exporter's emitted header row is the term column
followed by the real interval labels, for any interval list whose
labels are free of separators. -/
theorem exportMonthlyCsv_header (months : List MonthInterval)
    (resultRow : List (String × CellVal))
    (hlab : ∀ mi ∈ months, ∀ ch ∈ mi.label.data, ch ≠ ',' ∧ ch ≠ '\n') :
    jsSplitC ',' ((jsSplitC '\n' (exportMonthlyCsv months resultRow)).headD "")
      = "\"keyword\"" :: months.map MonthInterval.label := by
  have hdrNoNl : '\n' ∉ (jsJoinC ',' ((monthFields months.length).map csvQuote)).data := by
    intro hmem
    rcases mem_of_mem_icalateCh hmem with h | ⟨pd, hpd, hin⟩
    · exact absurd h (by decide)
    · rcases List.mem_map.mp hpd with ⟨p, hp, rfl⟩
      exact (monthFields_quoted_chars months.length p hp '\n' hin).2 rfl
  have hlines : jsSplitC '\n' (json2csvParse (monthFields months.length) [resultRow])
      = jsJoinC ',' ((monthFields months.length).map csvQuote)
        :: jsSplitC '\n'
          (jsJoinC ',' ((monthFields months.length).map (renderDataCell resultRow))) :=
    jsSplitC_two_lines _ _ hdrNoNl
  have hexp : exportMonthlyCsv months resultRow
      = jsJoinC '\n'
          (jsJoinC ',' (setLoop
              (jsSplitC ',' (jsJoinC ',' ((monthFields months.length).map csvQuote)))
              (months.map MonthInterval.label) 0)
            :: jsSplitC '\n'
              (jsJoinC ',' ((monthFields months.length).map (renderDataCell resultRow)))) := by
    simp only [exportMonthlyCsv]
    rw [hlines]
  have hcols : jsSplitC ',' (jsJoinC ',' ((monthFields months.length).map csvQuote))
      = (monthFields months.length).map csvQuote :=
    jsSplitC_jsJoinC _ (by simp [monthFields])
      (fun p hp hmem => (monthFields_quoted_chars months.length p hp ',' hmem).1 rfl)
  have hset : setLoop ((monthFields months.length).map csvQuote)
        (months.map MonthInterval.label) 0
      = csvQuote "keyword" :: months.map MonthInterval.label := by
    rw [setLoop_spec _ 0 _ (by simp [monthFields]; omega)]
    simp [monthFields]
  have hquote : csvQuote "keyword" = "\"keyword\"" := by decide
  have hnewNoNl : '\n' ∉ (jsJoinC ','
      ("\"keyword\"" :: months.map MonthInterval.label)).data := by
    intro hmem
    rcases mem_of_mem_icalateCh hmem with h | ⟨pd, hpd, hin⟩
    · exact absurd h (by decide)
    · rcases List.mem_map.mp hpd with ⟨p, hp, rfl⟩
      rcases List.mem_cons.mp hp with rfl | hp
      · exact absurd hin (by decide)
      · rcases List.mem_map.mp hp with ⟨mi, hmi, rfl⟩
        exact (hlab mi hmi '\n' hin).2 rfl
  have hfin : jsSplitC '\n' (jsJoinC '\n'
        (jsJoinC ',' ("\"keyword\"" :: months.map MonthInterval.label)
          :: jsSplitC '\n'
            (jsJoinC ',' ((monthFields months.length).map (renderDataCell resultRow)))))
      = jsJoinC ',' ("\"keyword\"" :: months.map MonthInterval.label)
          :: jsSplitC '\n'
            (jsJoinC ',' ((monthFields months.length).map (renderDataCell resultRow))) := by
    apply jsSplitC_jsJoinC _ (by simp)
    intro p hp
    rcases List.mem_cons.mp hp with rfl | hp
    · exact hnewNoNl
    · simp only [jsSplitC] at hp
      rcases List.mem_map.mp hp with ⟨q, hq2, rfl⟩
      exact not_mem_of_mem_splitCh hq2
  have hlast : jsSplitC ',' (jsJoinC ',' ("\"keyword\"" :: months.map MonthInterval.label))
      = "\"keyword\"" :: months.map MonthInterval.label := by
    apply jsSplitC_jsJoinC _ (by simp)
    intro p hp
    rcases List.mem_cons.mp hp with rfl | hp
    · intro hmem; exact absurd hmem (by decide)
    · rcases List.mem_map.mp hp with ⟨mi, hmi, rfl⟩
      intro hmem
      exact (hlab mi hmi ',' hmem).1 rfl
  rw [hexp, hcols, hset, hquote, hfin, List.headD_cons, hlast]

/-- C7: for every run of the monthly route (any reference instant,
keyword and per-month fetch outcomes), the emitted CSV's header row has
the term column first and its columns 2..N+1 equal to the real interval
labels L1..LN in order — never the internal `month1…monthN` placeholder
keys used during assembly. -/
theorem c7_header_real_labels (now : Int) (keyword : String) (f : Nat → Option Nat) :
    jsSplitC ',' ((jsSplitC '\n' (monthlyPOSTcsv now keyword f)).headD "")
      = "\"keyword\"" :: (getLast12MonthsExcludingCurrent now).map MonthInterval.label := by
  unfold monthlyPOSTcsv
  apply exportMonthlyCsv_header
  intro mi hmi ch hch
  simp only [getLast12MonthsExcludingCurrent] at hmi
  have h := monthsFromYM_label_mem _ _ mi hmi ch hch
  exact ⟨(digit_or_dash_ok h).1, (digit_or_dash_ok h).2.1⟩
